import Mathlib

/-!
A verification development for the chat-excel client (TypeScript sources in
`src/`).  The definitions below are shallow embeddings of the functions named
in their doc comments; text is modelled as `List Char` (the `TextDecoder`
used by the client with `stream: true` makes byte-chunk boundaries
transparent, so the character level is the faithful granularity), JSON values
as an inductive `Json` with decimal numbers kept exact as `m * 10^e`.
-/

namespace ChatExcel

/-- JSON values as produced by `JSON.parse`.  A number token
`-12.34e5` is stored exactly as mantissa/exponent (`m * 10 ^ e`). -/
inductive Json where
  | null : Json
  | bool (b : Bool) : Json
  | num (m : Int) (e : Int) : Json
  | str (s : List Char) : Json
  | arr (xs : List Json) : Json
  | obj (fields : List (List Char × Json)) : Json
deriving Repr

mutual

def jsonDecEq : (a b : Json) → Decidable (a = b)
  | .null, .null => isTrue rfl
  | .bool a, .bool b =>
      match decEq a b with
      | isTrue h => isTrue (by rw [h])
      | isFalse h => isFalse (by intro hc; cases hc; exact h rfl)
  | .num m1 e1, .num m2 e2 =>
      match decEq m1 m2, decEq e1 e2 with
      | isTrue h1, isTrue h2 => isTrue (by rw [h1, h2])
      | isFalse h1, _ => isFalse (by intro hc; cases hc; exact h1 rfl)
      | _, isFalse h2 => isFalse (by intro hc; cases hc; exact h2 rfl)
  | .str a, .str b =>
      match decEq a b with
      | isTrue h => isTrue (by rw [h])
      | isFalse h => isFalse (by intro hc; cases hc; exact h rfl)
  | .arr xs, .arr ys =>
      match jsonListDecEq xs ys with
      | isTrue h => isTrue (by rw [h])
      | isFalse h => isFalse (by intro hc; cases hc; exact h rfl)
  | .obj xs, .obj ys =>
      match jsonFieldsDecEq xs ys with
      | isTrue h => isTrue (by rw [h])
      | isFalse h => isFalse (by intro hc; cases hc; exact h rfl)
  | .null, .bool _ | .null, .num _ _ | .null, .str _ | .null, .arr _ | .null, .obj _ =>
      isFalse (by intro h; cases h)
  | .bool _, .null | .bool _, .num _ _ | .bool _, .str _ | .bool _, .arr _ | .bool _, .obj _ =>
      isFalse (by intro h; cases h)
  | .num _ _, .null | .num _ _, .bool _ | .num _ _, .str _ | .num _ _, .arr _ | .num _ _, .obj _ =>
      isFalse (by intro h; cases h)
  | .str _, .null | .str _, .bool _ | .str _, .num _ _ | .str _, .arr _ | .str _, .obj _ =>
      isFalse (by intro h; cases h)
  | .arr _, .null | .arr _, .bool _ | .arr _, .num _ _ | .arr _, .str _ | .arr _, .obj _ =>
      isFalse (by intro h; cases h)
  | .obj _, .null | .obj _, .bool _ | .obj _, .num _ _ | .obj _, .str _ | .obj _, .arr _ =>
      isFalse (by intro h; cases h)

def jsonListDecEq : (a b : List Json) → Decidable (a = b)
  | [], [] => isTrue rfl
  | [], _ :: _ => isFalse (by intro h; cases h)
  | _ :: _, [] => isFalse (by intro h; cases h)
  | x :: xs, y :: ys =>
      match jsonDecEq x y, jsonListDecEq xs ys with
      | isTrue h1, isTrue h2 => isTrue (by rw [h1, h2])
      | isFalse h1, _ => isFalse (by intro hc; cases hc; exact h1 rfl)
      | _, isFalse h2 => isFalse (by intro hc; cases hc; exact h2 rfl)

def jsonFieldsDecEq : (a b : List (List Char × Json)) → Decidable (a = b)
  | [], [] => isTrue rfl
  | [], _ :: _ => isFalse (by intro h; cases h)
  | _ :: _, [] => isFalse (by intro h; cases h)
  | (k1, v1) :: xs, (k2, v2) :: ys =>
      match decEq k1 k2, jsonDecEq v1 v2, jsonFieldsDecEq xs ys with
      | isTrue h1, isTrue h2, isTrue h3 => isTrue (by rw [h1, h2, h3])
      | isFalse h1, _, _ => isFalse (by intro hc; cases hc; exact h1 rfl)
      | _, isFalse h2, _ => isFalse (by intro hc; cases hc; exact h2 rfl)
      | _, _, isFalse h3 => isFalse (by intro hc; cases hc; exact h3 rfl)

end

instance : DecidableEq Json := jsonDecEq

/-- JavaScript truthiness of a JSON value (`null`, `false`, `0`, `""` are
falsy; every object and array is truthy). -/
def truthy : Json → Bool
  | .null => false
  | .bool b => b
  | .num m _ => m != 0
  | .str s => !s.isEmpty
  | .arr _ => true
  | .obj _ => true

/-- Truthiness of a possibly-absent (`undefined`) value. -/
def truthyO : Option Json → Bool
  | some v => truthy v
  | none => false

/-- Field lookup on a parsed JSON object.  `JSON.parse` lets a later
duplicate key overwrite an earlier one, so the last binding wins. -/
def getField (fs : List (List Char × Json)) (k : List Char) : Option Json :=
  (fs.filter (fun p => p.1 = k)).getLast?.map Prod.snd

/-- JavaScript property access `v?.[k]`: `undefined` (i.e. `none`) unless
`v` is an object that has the field. -/
def jsGet (v : Json) (k : List Char) : Option Json :=
  match v with
  | .obj fs => getField fs k
  | _ => none

/-- `o?.[k]` for a possibly-absent base value. -/
def optGet (o : Option Json) (k : List Char) : Option Json :=
  o.bind (fun v => jsGet v k)

/-- JavaScript `.length` as read by the chart code: defined for arrays and
strings, `undefined` otherwise. -/
def jsLen : Json → Option Nat
  | .arr xs => some xs.length
  | .str s => some s.length
  | _ => none

/-! ### A model of `JSON.parse`

`sendChatMessageStream` (src/src/services/api.ts:352) feeds each frame body
to `JSON.parse`; the functions below implement the JSON grammar it accepts.
Recursion is by fuel, which the top-level entry point sizes off the input so
that it never runs out on inputs the grammar accepts. -/

def isJsonWs (c : Char) : Bool :=
  c = ' ' || c = '\t' || c = '\n' || c = '\r'

def skipWs (s : List Char) : List Char := s.dropWhile isJsonWs

/-- Value of one hex digit (codepoint arithmetic: `0`–`9`, `a`–`f`,
`A`–`F`). -/
def hexVal (c : Char) : Option Nat :=
  let cp := c.toNat
  if 48 ≤ cp && cp ≤ 57 then some (cp - 48)
  else if 97 ≤ cp && cp ≤ 102 then some (cp - 87)
  else if 65 ≤ cp && cp ≤ 70 then some (cp - 55)
  else none

def digitsToNat (ds : List Char) : Nat :=
  ds.foldl (fun acc d => 10 * acc + (d.toNat - 48)) 0

/-- Body of a JSON string literal after the opening quote: returns the
decoded characters and the input following the closing quote. -/
def parseStringBody : List Char → Option (List Char × List Char)
  | [] => none
  | '"' :: rest => some ([], rest)
  | '\\' :: rest =>
    match rest with
    | [] => none
    | esc :: rest2 =>
      match esc with
      | '"' => (parseStringBody rest2).map (fun p => ('"' :: p.1, p.2))
      | '\\' => (parseStringBody rest2).map (fun p => ('\\' :: p.1, p.2))
      | '/' => (parseStringBody rest2).map (fun p => ('/' :: p.1, p.2))
      | 'b' => (parseStringBody rest2).map (fun p => ('\x08' :: p.1, p.2))
      | 'f' => (parseStringBody rest2).map (fun p => ('\x0c' :: p.1, p.2))
      | 'n' => (parseStringBody rest2).map (fun p => ('\n' :: p.1, p.2))
      | 'r' => (parseStringBody rest2).map (fun p => ('\r' :: p.1, p.2))
      | 't' => (parseStringBody rest2).map (fun p => ('\t' :: p.1, p.2))
      | 'u' =>
        match rest2 with
        | h1 :: h2 :: h3 :: h4 :: rest3 =>
          match hexVal h1, hexVal h2, hexVal h3, hexVal h4 with
          | some a, some b, some c, some d =>
            (parseStringBody rest3).map
              (fun p => (Char.ofNat (((a * 16 + b) * 16 + c) * 16 + d) :: p.1, p.2))
          | _, _, _, _ => none
        | _ => none
      | _ => none
  | c :: rest =>
    if c.toNat < 32 then none
    else (parseStringBody rest).map (fun p => (c :: p.1, p.2))

/-- A JSON number token (JSON.parse grammar: no leading zeros, mandatory
digits after `.` and the exponent marker). -/
def parseNumber (s : List Char) : Option (Json × List Char) :=
  let signStep : Bool × List Char :=
    match s with
    | '-' :: r => (true, r)
    | _ => (false, s)
  let neg := signStep.1
  let s1 := signStep.2
  let intStep : Option (List Char × List Char) :=
    match s1 with
    | '0' :: r => some (['0'], r)
    | c :: _ => if c.isDigit then some (s1.takeWhile Char.isDigit, s1.dropWhile Char.isDigit) else none
    | [] => none
  match intStep with
  | none => none
  | some (intDs, s2) =>
    let fracStep : Option (List Char × List Char) :=
      match s2 with
      | '.' :: r =>
        let ds := r.takeWhile Char.isDigit
        if ds.isEmpty then none else some (ds, r.dropWhile Char.isDigit)
      | _ => some ([], s2)
    match fracStep with
    | none => none
    | some (fracDs, s3) =>
      let expStep : Option (Int × List Char) :=
        match s3 with
        | c :: r =>
          if c = 'e' || c = 'E' then
            let signR : Bool × List Char :=
              match r with
              | '+' :: rr => (false, rr)
              | '-' :: rr => (true, rr)
              | _ => (false, r)
            let ds := signR.2.takeWhile Char.isDigit
            if ds.isEmpty then none
            else some ((if signR.1 then -(digitsToNat ds : Int) else (digitsToNat ds : Int)),
                       signR.2.dropWhile Char.isDigit)
          else some (0, s3)
        | [] => some (0, s3)
      match expStep with
      | none => none
      | some (ex, s4) =>
        let mag : Int := (digitsToNat (intDs ++ fracDs) : Int)
        some (.num (if neg then -mag else mag) (ex - fracDs.length), s4)

mutual

def parseValue : Nat → List Char → Option (Json × List Char)
  | 0, _ => none
  | Nat.succ fuel, s =>
    match skipWs s with
    | 'n' :: 'u' :: 'l' :: 'l' :: r => some (.null, r)
    | 't' :: 'r' :: 'u' :: 'e' :: r => some (.bool true, r)
    | 'f' :: 'a' :: 'l' :: 's' :: 'e' :: r => some (.bool false, r)
    | '"' :: r => (parseStringBody r).map (fun p => (.str p.1, p.2))
    | '[' :: r =>
      (match skipWs r with
       | ']' :: r2 => some (.arr [], r2)
       | r2 => (parseElems fuel r2).map (fun p => (.arr p.1, p.2)))
    | '{' :: r =>
      (match skipWs r with
       | '}' :: r2 => some (.obj [], r2)
       | r2 => (parseFields fuel r2).map (fun p => (.obj p.1, p.2)))
    | s2 => parseNumber s2

def parseElems : Nat → List Char → Option (List Json × List Char)
  | 0, _ => none
  | Nat.succ fuel, s =>
    match parseValue fuel s with
    | none => none
    | some (v, r) =>
      match skipWs r with
      | ',' :: r2 => (parseElems fuel r2).map (fun p => (v :: p.1, p.2))
      | ']' :: r2 => some ([v], r2)
      | _ => none

def parseFields : Nat → List Char → Option (List (List Char × Json) × List Char)
  | 0, _ => none
  | Nat.succ fuel, s =>
    match skipWs s with
    | '"' :: r =>
      match parseStringBody r with
      | none => none
      | some (k, r2) =>
        match skipWs r2 with
        | ':' :: r3 =>
          match parseValue fuel r3 with
          | none => none
          | some (v, r4) =>
            match skipWs r4 with
            | ',' :: r5 => (parseFields fuel r5).map (fun p => ((k, v) :: p.1, p.2))
            | '}' :: r5 => some ([(k, v)], r5)
            | _ => none
        | _ => none
    | _ => none

end

/-- `JSON.parse`: a complete value with nothing but whitespace after it. -/
def jsonParse (s : List Char) : Option Json :=
  match parseValue (2 * s.length + 4) s with
  | some (v, r) => if (skipWs r).isEmpty then some v else none
  | none => none

/-- Whitespace removed by JavaScript `String.prototype.trim`. -/
def isJsTrimWs (c : Char) : Bool :=
  c = ' ' || c = '\t' || c = '\n' || c = '\r' || c = '\x0b' || c = '\x0c' || c = '\u00A0'

/-- JavaScript `String.prototype.trim`. -/
def jsTrim (s : List Char) : List Char :=
  ((s.dropWhile isJsTrimWs).reverse.dropWhile isJsTrimWs).reverse

/-! ### Stream frame decoder (`sendChatMessageStream`, src/src/services/api.ts:311-370)

The loop keeps one text buffer, appends each decoded byte chunk, splits on
`"\n"`, retains the last piece (`buffer = lines.pop() || ""`) and processes
every complete line through the `data: ` / `JSON.parse` / `type` dispatch.
Callback invocations are modelled as an ordered event list. -/

/-- One callback invocation of `sendChatMessageStream`: `chunk c` is
`onChunk(c)`, `done cfg` is `onDone(cfg)` (with the `|| null` already
applied), `error m` is `onError(m)` (with the default message applied). -/
inductive StreamEvent where
  | chunk (content : Json) : StreamEvent
  | done (chartConfig : Json) : StreamEvent
  | error (message : Json) : StreamEvent
deriving DecidableEq, Repr

/-- The frame marker `"data: "` (api.ts:348). -/
def dataMark : List Char := ['d', 'a', 't', 'a', ':', ' ']

def typeKey : List Char := ['t', 'y', 'p', 'e']
def contentKey : List Char := ['c', 'o', 'n', 't', 'e', 'n', 't']
def chartConfigKey : List Char := ['c', 'h', 'a', 'r', 't', '_', 'c', 'o', 'n', 'f', 'i', 'g']
def messageKey : List Char := ['m', 'e', 's', 's', 'a', 'g', 'e']
def chunkTag : List Char := ['c', 'h', 'u', 'n', 'k']
def doneTag : List Char := ['d', 'o', 'n', 'e']
def errorTag : List Char := ['e', 'r', 'r', 'o', 'r']

/-- The fallback error message `"未知错误"` (api.ts:358). -/
def unknownErrorMsg : List Char := ['未', '知', '错', '误']

/-- `event.chart_config || null` (api.ts:356). -/
def jsOrNull (o : Option Json) : Json :=
  match o with
  | some v => if truthy v then v else .null
  | none => .null

/-- `event.message || "未知错误"` (api.ts:358). -/
def jsOrDefault (o : Option Json) (d : List Char) : Json :=
  match o with
  | some v => if truthy v then v else .str d
  | none => .str d

/-- The per-line dispatch of `sendChatMessageStream` (api.ts:347-364): a
line must start with `"data: "`, its remainder must not be blank and must
parse as JSON; a parsed object fires at most one callback according to its
`type` field.  Accessing `.type` on a parsed `null` throws inside the
`try`, which the empty `catch` swallows, so every non-object parse result
yields no event. -/
def processLine (line : List Char) : Option StreamEvent :=
  if line.take 6 = dataMark then
    let jsonStr := line.drop 6
    if (jsTrim jsonStr).isEmpty then none
    else
      match jsonParse jsonStr with
      | some (.obj fs) =>
        if getField fs typeKey = some (.str chunkTag) && truthyO (getField fs contentKey) then
          (getField fs contentKey).map .chunk
        else if getField fs typeKey = some (.str doneTag) then
          some (.done (jsOrNull (getField fs chartConfigKey)))
        else if getField fs typeKey = some (.str errorTag) then
          some (.error (jsOrDefault (getField fs messageKey) unknownErrorMsg))
        else none
      | _ => none
  else none

/-- `buffer.split("\n")` followed by `buffer = lines.pop() || ""`
(api.ts:344-345): the complete lines, and the retained trailing piece. -/
def splitLines : List Char → List (List Char) × List Char
  | [] => ([], [])
  | c :: cs =>
    if c = '\n' then ([] :: (splitLines cs).1, (splitLines cs).2)
    else
      match splitLines cs with
      | ([], r) => ([], c :: r)
      | (l :: ls, r) => ((c :: l) :: ls, r)

/-- Decoder state: callbacks fired so far and the retained buffer. -/
structure DecState where
  events : List StreamEvent
  buffer : List Char
deriving DecidableEq, Repr

/-- One iteration of the read loop (api.ts:337-366) on a decoded chunk. -/
def feedChunk (st : DecState) (chunk : List Char) : DecState :=
  let p := splitLines (st.buffer ++ chunk)
  ⟨st.events ++ p.1.filterMap processLine, p.2⟩

/-- The whole stream consumption: all chunks in order from the empty
buffer; at end-of-stream the loop breaks and the buffer is dropped. -/
def runStream (chunks : List (List Char)) : List StreamEvent :=
  (chunks.foldl feedChunk ⟨[], []⟩).events

/-- The chunking-independent denotation: events of all complete lines of
the full text, the part after the last newline discarded. -/
def decodeAll (s : List Char) : List StreamEvent :=
  (splitLines s).1.filterMap processLine

/-- Prefixing a piece of text onto the first complete line of a split. -/
def glueHead (r : List Char) : List (List Char) → List (List Char)
  | [] => []
  | l :: ls => (r ++ l) :: ls

theorem splitLines_append (a b : List Char) :
    splitLines (a ++ b) =
      ((splitLines a).1 ++ glueHead (splitLines a).2 (splitLines b).1,
       if (splitLines b).1.isEmpty then (splitLines a).2 ++ (splitLines b).2
       else (splitLines b).2) := by
  induction a with
  | nil =>
    rcases hb : splitLines b with ⟨lb, rb⟩
    cases lb <;> simp [splitLines, glueHead, hb]
  | cons c cs ih =>
    rcases hcs : splitLines cs with ⟨lcs, rcs⟩
    rcases hb : splitLines b with ⟨lb, rb⟩
    rw [hcs, hb] at ih
    by_cases hc : c = '\n'
    · subst hc
      simp only [List.cons_append, splitLines, if_pos, hcs]
      cases lb <;> cases lcs <;> simp [glueHead, ih]
    · simp only [List.cons_append, splitLines, if_neg hc, hcs]
      cases lcs <;> cases lb <;> simp [glueHead, ih]

theorem splitLines_rest_no_newline (s : List Char) : '\n' ∉ (splitLines s).2 := by
  induction s with
  | nil => simp [splitLines]
  | cons c cs ih =>
    by_cases hc : c = '\n'
    · subst hc; simpa [splitLines] using ih
    · rcases h : splitLines cs with ⟨lcs, rcs⟩
      rw [h] at ih
      cases lcs with
      | nil =>
        simp only [splitLines, if_neg hc, h]
        simp only [List.mem_cons, not_or]
        exact ⟨fun he => hc he.symm, ih⟩
      | cons l ls => simp [splitLines, if_neg hc, h]; exact ih

theorem splitLines_of_no_newline (s : List Char) (h : '\n' ∉ s) :
    splitLines s = ([], s) := by
  induction s with
  | nil => rfl
  | cons c cs ih =>
    have hc : c ≠ '\n' := fun he => h (he ▸ List.mem_cons_self c cs)
    have h2 : '\n' ∉ cs := fun hm => h (List.mem_cons_of_mem _ hm)
    simp [splitLines, ih h2, hc]

theorem foldl_feedChunk (chunks : List (List Char)) :
    ∀ (evs : List StreamEvent) (buf : List Char), '\n' ∉ buf →
    chunks.foldl feedChunk ⟨evs, buf⟩ =
      ⟨evs ++ (splitLines (buf ++ chunks.flatten)).1.filterMap processLine,
       (splitLines (buf ++ chunks.flatten)).2⟩ := by
  induction chunks with
  | nil =>
    intro evs buf h
    simp [splitLines_of_no_newline buf h]
  | cons c cs ih =>
    intro evs buf h
    have hrest : '\n' ∉ (splitLines (buf ++ c)).2 := splitLines_rest_no_newline (buf ++ c)
    have hRid : splitLines ((splitLines (buf ++ c)).2) = ([], (splitLines (buf ++ c)).2) :=
      splitLines_of_no_newline _ hrest
    simp only [List.foldl_cons, List.flatten_cons, feedChunk]
    rw [ih _ _ hrest]
    have h1 : buf ++ (c ++ cs.flatten) = (buf ++ c) ++ cs.flatten := by
      simp [List.append_assoc]
    rw [h1, splitLines_append (buf ++ c) cs.flatten,
        splitLines_append ((splitLines (buf ++ c)).2) cs.flatten, hRid]
    simp [List.filterMap_append, List.append_assoc]

/-- The decoder is a function of the concatenated text only. -/
theorem runStream_eq_decodeAll (chunks : List (List Char)) :
    runStream chunks = decodeAll chunks.flatten := by
  have h := foldl_feedChunk chunks [] [] (by simp)
  simp only [runStream, decodeAll, h, List.nil_append]

theorem glueHead_nil (ls : List (List Char)) : glueHead [] ls = ls := by
  cases ls <;> simp [glueHead]

/-- The spec's partial-frame example: `data: {"type":"chunk","content":"hi"}`
followed by a newline. -/
def exampleChunkFrame : List Char :=
  ("data: \x7b\"type\":\"chunk\",\"content\":\"hi\"\x7d\n").toList

/-- **C1.** The callback sequence of `sendChatMessageStream` is independent
of how the text is partitioned into chunks: the fold over chunks with one
retained buffer equals the denotation on the concatenation; in particular a
frame split across any two chunk boundaries yields exactly one event, and
bytes after the final newline are discarded without producing an event. -/
theorem C1_decoder_chunk_boundary_independence :
    (∀ chunks : List (List Char), runStream chunks = decodeAll chunks.flatten) ∧
    (∀ a b : List Char, a ++ b = exampleChunkFrame →
      runStream [a, b] = [StreamEvent.chunk (Json.str ['h', 'i'])]) ∧
    (∀ s t : List Char, '\n' ∉ t → decodeAll (s ++ t) = decodeAll s) := by
  refine ⟨runStream_eq_decodeAll, ?_, ?_⟩
  · intro a b hab
    rw [runStream_eq_decodeAll]
    have hfl : [a, b].flatten = a ++ b := by simp
    rw [hfl, hab]
    rfl
  · intro s t ht
    unfold decodeAll
    rw [splitLines_append s t, splitLines_of_no_newline t ht]
    simp [glueHead]

/-- Witness for C1: a concrete split of the example frame yields exactly
one `Chunk("hi")` event. -/
theorem C1_decoder_chunk_boundary_independence_witness :
    runStream [("data: \x7b\"ty").toList, ("pe\":\"chunk\",\"content\":\"hi\"\x7d\n").toList]
      = [StreamEvent.chunk (Json.str ['h', 'i'])] :=
  C1_decoder_chunk_boundary_independence.2.1 _ _ (by decide)

/-- A stream whose first frame is a `done`, followed by a `chunk` frame and
another `done` frame. -/
def afterDoneStream : List Char :=
  ("data: \x7b\"type\":\"done\"\x7d\ndata: \x7b\"type\":\"chunk\",\"content\":\"hi\"\x7d\ndata: \x7b\"type\":\"done\"\x7d\n").toList

/-- **C10.** The stream consumer does not stop at a terminal frame: lines
after any newline-terminated prefix are decoded exactly as they would be on
their own, so `onDone`/`onError` can fire more than once and a chunk frame
after a done frame still invokes `onChunk` (concrete stream: done, chunk,
done gives three events in order). -/
theorem C10_decoder_continues_after_terminal_frame :
    (∀ s t : List Char, (splitLines s).2 = [] →
        decodeAll (s ++ t) = decodeAll s ++ decodeAll t) ∧
    decodeAll afterDoneStream =
      [StreamEvent.done Json.null, StreamEvent.chunk (Json.str ['h', 'i']),
       StreamEvent.done Json.null] := by
  constructor
  · intro s t hs
    unfold decodeAll
    rw [splitLines_append s t, hs]
    simp [glueHead_nil, List.filterMap_append]
  · rfl

/-- Witness for C10: the homomorphism applied after a concrete
newline-terminated done frame. -/
theorem C10_decoder_continues_after_terminal_frame_witness :
    decodeAll (("data: \x7b\"type\":\"done\"\x7d\n").toList ++ exampleChunkFrame)
      = decodeAll ("data: \x7b\"type\":\"done\"\x7d\n").toList ++ decodeAll exampleChunkFrame :=
  C10_decoder_continues_after_terminal_frame.1 _ _ (by decide)

theorem take_dataMark (rest : List Char) : (dataMark ++ rest).take 6 = dataMark := by
  rw [show (6 : Nat) = dataMark.length from rfl, List.take_left]

theorem drop_dataMark (rest : List Char) : (dataMark ++ rest).drop 6 = rest := by
  rw [show (6 : Nat) = dataMark.length from rfl, List.drop_left]

/-- The spec's tolerance scenario: a valid chunk frame, a blank line, a
`data: not-json` line, then a valid done frame. -/
def toleranceStream : List Char :=
  ("data: \x7b\"type\":\"chunk\",\"content\":\"hi\"\x7d\n\ndata: not-json\ndata: \x7b\"type\":\"done\"\x7d\n").toList

/-- **C2.** Per-line contract of `sendChatMessageStream`: a line without the
`data: ` marker, or with a blank or unparsable remainder, fires no
callback; a parsed `chunk` object fires `onChunk(content)` iff `content` is
truthy (for a string: nonempty); `done` fires `onDone` with
`chart_config || null`; `error` fires `onError` with
`message || "未知错误"`.  A blank line and a `data: not-json` line between
two valid frames leave exactly two events. -/
theorem C2_frame_dispatch_contract :
    (∀ line : List Char, line.take 6 ≠ dataMark → processLine line = none) ∧
    (∀ rest : List Char, (jsTrim rest).isEmpty → processLine (dataMark ++ rest) = none) ∧
    (∀ rest : List Char, jsonParse rest = none → processLine (dataMark ++ rest) = none) ∧
    (∀ rest : List Char, ∀ fs, (jsTrim rest).isEmpty = false →
        jsonParse rest = some (.obj fs) →
        getField fs typeKey = some (.str chunkTag) →
        processLine (dataMark ++ rest) =
          (if truthyO (getField fs contentKey) then (getField fs contentKey).map .chunk
           else none)) ∧
    (∀ rest : List Char, ∀ fs s, (jsTrim rest).isEmpty = false →
        jsonParse rest = some (.obj fs) →
        getField fs typeKey = some (.str chunkTag) →
        getField fs contentKey = some (.str s) →
        (processLine (dataMark ++ rest) = some (.chunk (.str s)) ↔ s ≠ [])) ∧
    (∀ rest : List Char, ∀ fs, (jsTrim rest).isEmpty = false →
        jsonParse rest = some (.obj fs) →
        getField fs typeKey = some (.str doneTag) →
        processLine (dataMark ++ rest) =
          some (.done (jsOrNull (getField fs chartConfigKey)))) ∧
    (∀ rest : List Char, ∀ fs, (jsTrim rest).isEmpty = false →
        jsonParse rest = some (.obj fs) →
        getField fs typeKey = some (.str errorTag) →
        processLine (dataMark ++ rest) =
          some (.error (jsOrDefault (getField fs messageKey) unknownErrorMsg))) ∧
    decodeAll toleranceStream =
      [StreamEvent.chunk (Json.str ['h', 'i']), StreamEvent.done Json.null] := by
  have hne1 : chunkTag ≠ doneTag := by decide
  have hne2 : chunkTag ≠ errorTag := by decide
  have hne3 : doneTag ≠ chunkTag := by decide
  have hne4 : doneTag ≠ errorTag := by decide
  have hne5 : errorTag ≠ chunkTag := by decide
  have hne6 : errorTag ≠ doneTag := by decide
  refine ⟨?_, ?_, ?_, ?_, ?_, ?_, ?_, ?_⟩
  · intro line h
    unfold processLine
    rw [if_neg h]
  · intro rest h
    simp [processLine, take_dataMark, drop_dataMark, h]
  · intro rest hp
    by_cases ht : (jsTrim rest).isEmpty
    · simp [processLine, take_dataMark, drop_dataMark, ht]
    · simp [processLine, take_dataMark, drop_dataMark, ht, hp]
  · intro rest fs ht hp hty
    by_cases hb : truthyO (getField fs contentKey) <;>
      simp [processLine, take_dataMark, drop_dataMark, ht, hp, hty, hb, hne1, hne2]
  · intro rest fs s ht hp hty hc
    cases s <;>
      simp [processLine, take_dataMark, drop_dataMark, ht, hp, hty, hc, hne1, hne2,
            truthyO, truthy]
  · intro rest fs ht hp hty
    simp [processLine, take_dataMark, drop_dataMark, ht, hp, hty, hne3]
  · intro rest fs ht hp hty
    simp [processLine, take_dataMark, drop_dataMark, ht, hp, hty, hne5, hne6]
  · rfl

/-- Witness for C2: the chunk-frame dispatch evaluated on the concrete
example frame body. -/
theorem C2_frame_dispatch_contract_witness :
    (processLine (dataMark ++ ("\x7b\"type\":\"chunk\",\"content\":\"hi\"\x7d").toList)
        = some (.chunk (.str ['h', 'i']))) ↔ (['h', 'i'] : List Char) ≠ [] :=
  C2_frame_dispatch_contract.2.2.2.2.1
    ("\x7b\"type\":\"chunk\",\"content\":\"hi\"\x7d").toList
    [(typeKey, Json.str chunkTag), (contentKey, Json.str ['h', 'i'])] ['h', 'i']
    (by decide) (by rfl) (by decide) (by decide)

/-! ### Data-source token recomputation (`handleSheetsChange`)

The loop at src/src/pages/SessionPage.tsx:149-160 (and identically at
src/unnamed/part_002:288-299) rebuilds the whole list of data-source ids
from scratch: for each file, one `fileId:sheetName` token per selected
sheet, or the bare `fileId` when no sheet is selected. -/

/-- A file together with its currently selected sheets (the fields of
`RestoredFileInfo`/`FileInfo` the loop reads). -/
structure FileSelection where
  file_id : List Char
  selectedSheets : List (List Char)
deriving DecidableEq, Repr

/-- The `updatedInfos.forEach` push loop building `newDataSourceIds`. -/
def buildDataSourceIds (files : List FileSelection) : List (List Char) :=
  files.foldl
    (fun dsIds info =>
      if info.selectedSheets.length > 0 then
        dsIds ++ info.selectedSheets.map (fun sheet => info.file_id ++ ':' :: sheet)
      else dsIds ++ [info.file_id])
    []

/-- Per-file token list (the characterization the spec gives). -/
def fileTokens (info : FileSelection) : List (List Char) :=
  if info.selectedSheets.isEmpty then [info.file_id]
  else info.selectedSheets.map (fun sheet => info.file_id ++ ':' :: sheet)

theorem buildDataSourceIds_go (files : List FileSelection) :
    ∀ acc : List (List Char),
      files.foldl
        (fun dsIds info =>
          if info.selectedSheets.length > 0 then
            dsIds ++ info.selectedSheets.map (fun sheet => info.file_id ++ ':' :: sheet)
          else dsIds ++ [info.file_id])
        acc = acc ++ files.flatMap fileTokens := by
  induction files with
  | nil => intro acc; simp
  | cons f fs ih =>
    intro acc
    rcases hsel : f.selectedSheets with _ | ⟨s, ss⟩ <;>
      simp [ih, fileTokens, hsel, List.append_assoc]

/-- **C4.** The recomputed data-source token set is, file by file in file
order, one `fileId:sheet` token per selected sheet in selection order when
the file has a selection, and the bare `fileId` otherwise; in particular
`[]` selections give `[fileId]`, `["A","B"]` gives the two colon tokens,
and the result concatenates per-file lists in file order. -/
theorem C4_data_source_token_set :
    (∀ files : List FileSelection, buildDataSourceIds files = files.flatMap fileTokens) ∧
    (∀ fid : List Char, buildDataSourceIds [⟨fid, []⟩] = [fid]) ∧
    (∀ fid a b : List Char,
        buildDataSourceIds [⟨fid, [a, b]⟩] = [fid ++ ':' :: a, fid ++ ':' :: b]) ∧
    (∀ f1 f2 f3 : FileSelection,
        buildDataSourceIds [f1, f2, f3] = fileTokens f1 ++ fileTokens f2 ++ fileTokens f3) := by
  have hmain : ∀ files : List FileSelection,
      buildDataSourceIds files = files.flatMap fileTokens := by
    intro files
    unfold buildDataSourceIds
    rw [buildDataSourceIds_go files []]
    simp
  refine ⟨hmain, ?_, ?_, ?_⟩
  · intro fid; rw [hmain]; simp [fileTokens]
  · intro fid a b; rw [hmain]; simp [fileTokens]
  · intro f1 f2 f3; rw [hmain]; simp [List.append_assoc]

/-! ### Export coordinator (`exportAllCharts`, src/src/components/ChatMessageList.tsx:230-254)

`exportAllCharts` reads the registry values in insertion order; with no
instances it alerts `"当前没有可导出的图表"` and returns, otherwise it
schedules one export per instance with `setTimeout(..., index * 300)`. -/

/-- One record of `chartInstancesRef` (`ChartInstanceRef`): the owning
message id, the rendering handle (modelled as a numeric id), and the
export-filename title. -/
structure ChartInstanceRec where
  messageId : List Char
  instanceId : Nat
  title : Json
deriving DecidableEq, Repr

/-- `exportAllCharts`: the scheduled `(delay, record)` pairs, and whether
the nothing-to-export alert was raised. -/
def exportAllCharts (instances : List ChartInstanceRec) :
    List (Nat × ChartInstanceRec) × Bool :=
  if instances.length = 0 then ([], true)
  else (instances.enum.map (fun p => (p.1 * 300, p.2)), false)

/-- **C8.** `exportAllCharts` schedules exactly one export per registered
chart, at offsets `0, 300, ..., 300·(n−1)` ms in registration order (for 3
charts: 0, 300, 600), and on an empty registry raises the nothing-to-export
report and schedules nothing. -/
theorem C8_export_staggering :
    (∀ instances : List ChartInstanceRec,
        (exportAllCharts instances).1.map Prod.fst =
            (List.range instances.length).map (· * 300) ∧
        (exportAllCharts instances).1.map Prod.snd = instances ∧
        (exportAllCharts instances).2 = instances.isEmpty) ∧
    (∀ a b c : ChartInstanceRec,
        (exportAllCharts [a, b, c]).1.map Prod.fst = [0, 300, 600]) ∧
    (exportAllCharts []).1 = [] ∧ (exportAllCharts []).2 = true := by
  have hmain : ∀ instances : List ChartInstanceRec,
      (exportAllCharts instances).1.map Prod.fst =
          (List.range instances.length).map (· * 300) ∧
      (exportAllCharts instances).1.map Prod.snd = instances ∧
      (exportAllCharts instances).2 = instances.isEmpty := by
    intro instances
    cases instances with
    | nil => refine ⟨rfl, rfl, rfl⟩
    | cons a l =>
      refine ⟨?_, ?_, rfl⟩
      · show ((a :: l).enum.map (fun p => (p.1 * 300, p.2))).map Prod.fst = _
        rw [List.map_map]
        have h1 : (Prod.fst ∘ fun p : Nat × ChartInstanceRec => (p.1 * 300, p.2)) =
            ((· * 300) ∘ Prod.fst) := rfl
        rw [h1, ← List.map_map, List.enum_map_fst]
      · show ((a :: l).enum.map (fun p => (p.1 * 300, p.2))).map Prod.snd = _
        rw [List.map_map]
        have h1 : (Prod.snd ∘ fun p : Nat × ChartInstanceRec => (p.1 * 300, p.2)) =
            Prod.snd := rfl
        rw [h1, List.enum_map_snd]
  refine ⟨hmain, ?_, rfl, rfl⟩
  intro a b c
  rw [(hmain [a, b, c]).1, show ([a, b, c].length = 3) from rfl]
  decide

/-! ### Chart instance registry (`ChatMessageList.tsx`)

`chartInstancesRef.current` is a JavaScript `Map` keyed by message id:
`set` updates an existing key in place (keeping its position in insertion
order), `delete` removes the key and is a no-op on an absent key
(`handleInstanceReady` 257-266, `handleInstanceDestroy` 269-272).  The
`MessageChart` effect (53-59) calls `echarts.init` only when its instance
ref is still null, so re-rendering with a new config reuses the handle. -/

/-- The registry's backing entry list. -/
abbrev RegList : Type := List (List Char × ChartInstanceRec)

/-- JS `Map.prototype.set`. -/
def mapSet (m : RegList) (k : List Char) (v : ChartInstanceRec) : RegList :=
  if (List.any m fun p => p.1 = k) then
    List.map (fun p => if p.1 = k then (k, v) else p) m
  else m ++ [(k, v)]

/-- JS `Map.prototype.delete` (keys are unique by construction). -/
def mapDel (m : RegList) (k : List Char) : RegList :=
  List.filter (fun p => !(p.1 = k : Bool)) m

/-- Number of records stored under key `k`. -/
def countKey (m : RegList) (k : List Char) : Nat :=
  List.countP (fun p => p.1 = k) m

/-- `handleInstanceReady` (ChatMessageList.tsx:257-266): derive the title
`config?.title?.text || "图表"` and upsert the record keyed by message id. -/
def registerChart (reg : RegList) (messageId : List Char) (inst : Nat) (config : Json) :
    RegList :=
  mapSet reg messageId
    ⟨messageId, inst,
     jsOrDefault (optGet (jsGet config (['t', 'i', 't', 'l', 'e'])) (['t', 'e', 'x', 't']))
       ['图', '表']⟩

/-- `handleInstanceDestroy` (ChatMessageList.tsx:269-272). -/
def unregisterChart (reg : RegList) (messageId : List Char) : RegList :=
  mapDel reg messageId

/-- The `MessageChart` mount effect (ChatMessageList.tsx:56-59): `init` is
called only when the instance ref is null; returns the ref and the next
fresh handle id (its growth counts `echarts.init` calls). -/
def mountChart (current : Option Nat) (fresh : Nat) : Option Nat × Nat :=
  match current with
  | none => (some fresh, fresh + 1)
  | some h => (some h, fresh)

theorem countKey_map_replace (m : RegList) (k : List Char) (v : ChartInstanceRec) :
    countKey (List.map (fun p => if p.1 = k then (k, v) else p) m) k = countKey m k := by
  induction m with
  | nil => rfl
  | cons p ps ih =>
    by_cases h : p.1 = k <;>
      simp [countKey, List.countP_cons, h] at ih ⊢ <;> omega

theorem countKey_mapSet (m : RegList) (k : List Char) (v : ChartInstanceRec) :
    countKey (mapSet m k v) k = max (countKey m k) 1 := by
  by_cases h : (List.any m fun p => p.1 = k)
  · rw [mapSet, if_pos h, countKey_map_replace]
    have hpos : 0 < countKey m k := by
      rw [countKey, List.countP_pos_iff]
      rcases List.any_eq_true.mp h with ⟨p, hp, hpk⟩
      exact ⟨p, hp, hpk⟩
    omega
  · rw [mapSet, if_neg h]
    have hz : countKey m k = 0 := by
      rw [countKey, List.countP_eq_zero]
      intro p hp hpk
      exact h (List.any_eq_true.mpr ⟨p, hp, hpk⟩)
    rw [countKey, List.countP_append, ← countKey, hz]
    simp [List.countP_cons]

theorem length_mapSet_of_mem (m : RegList) (k : List Char) (v : ChartInstanceRec)
    (h : (List.any m fun p => p.1 = k) = true) :
    (mapSet m k v).length = m.length := by
  rw [mapSet, if_pos h, List.length_map]

theorem any_mapSet (m : RegList) (k : List Char) (v : ChartInstanceRec) :
    (List.any (mapSet m k v) fun p => p.1 = k) = true := by
  have := countKey_mapSet m k v
  rw [List.any_eq_true]
  have hpos : 0 < countKey (mapSet m k v) k := by omega
  rw [countKey, List.countP_pos_iff] at hpos
  rcases hpos with ⟨p, hp, hpk⟩
  exact ⟨p, hp, hpk⟩

theorem filter_ne_map_replace (m : RegList) (k : List Char) (v : ChartInstanceRec) :
    List.filter (fun p => !(p.1 = k : Bool))
        (List.map (fun p => if p.1 = k then (k, v) else p) m) =
      List.filter (fun p => !(p.1 = k : Bool)) m := by
  induction m with
  | nil => rfl
  | cons p ps ih =>
    by_cases hp : p.1 = k <;> simp [List.filter_cons, hp, ih]

theorem mapDel_mapSet (m : RegList) (k : List Char) (v : ChartInstanceRec) :
    mapDel (mapSet m k v) k = mapDel m k := by
  by_cases h : (List.any m fun p => p.1 = k)
  · rw [mapSet, if_pos h, mapDel, mapDel]
    exact filter_ne_map_replace m k v
  · rw [mapSet, if_neg h, mapDel, mapDel, List.filter_append]
    simp

theorem countKey_le_one_of_pairwise (m : RegList) (k : List Char)
    (h : m.Pairwise (fun a b => a.1 ≠ b.1)) : countKey m k ≤ 1 := by
  induction m with
  | nil => simp [countKey]
  | cons p ps ih =>
    rcases List.pairwise_cons.mp h with ⟨hp, hps⟩
    by_cases hk : p.1 = k
    · have hz : countKey ps k = 0 := by
        rw [countKey, List.countP_eq_zero]
        intro q hq hqk
        have hq1 : q.1 = k := by simpa using hqk
        exact (hp q hq) (hk.trans hq1.symm)
      rw [countKey, List.countP_cons]
      rw [countKey] at hz
      rw [hz]
      simp [hk]
    · have hle := ih hps
      rw [countKey, List.countP_cons]
      rw [countKey] at hle
      have hd : (decide (p.1 = k)) = false := by simp [hk]
      rw [hd]
      simpa using hle

/-- **C7.** Registering a chart twice under the same entry id leaves
exactly one registry record and creates no second rendering instance (the
mount effect calls `init` only from the null state); unregistering then
removes that record, and unregistering twice or unregistering an id never
registered is a no-op. -/
theorem C7_registry_idempotent_upsert :
    (∀ (reg : RegList) (mid : List Char) (i1 i2 : Nat) (c1 c2 : Json),
        reg.Pairwise (fun a b => a.1 ≠ b.1) →
        countKey (registerChart (registerChart reg mid i1 c1) mid i2 c2) mid = 1 ∧
        (registerChart (registerChart reg mid i1 c1) mid i2 c2).length =
          (registerChart reg mid i1 c1).length ∧
        unregisterChart (registerChart (registerChart reg mid i1 c1) mid i2 c2) mid =
          unregisterChart reg mid) ∧
    (∀ (mid : List Char) (i1 i2 : Nat) (c1 c2 : Json),
        unregisterChart (registerChart (registerChart ([] : RegList) mid i1 c1) mid i2 c2)
          mid = []) ∧
    (∀ fresh : Nat,
        mountChart (mountChart none fresh).1 (mountChart none fresh).2 =
          (some fresh, fresh + 1)) ∧
    (∀ (reg : RegList) (mid : List Char),
        unregisterChart (unregisterChart reg mid) mid = unregisterChart reg mid) ∧
    (∀ (reg : RegList) (mid : List Char), (∀ p ∈ reg, p.1 ≠ mid) →
        unregisterChart reg mid = reg) := by
  refine ⟨?_, ?_, ?_, ?_, ?_⟩
  · intro reg mid i1 i2 c1 c2 hpw
    refine ⟨?_, ?_, ?_⟩
    · rw [registerChart, registerChart, countKey_mapSet, countKey_mapSet]
      have hle := countKey_le_one_of_pairwise reg mid hpw
      rcases Nat.le_one_iff_eq_zero_or_eq_one.mp hle with h0 | h1
      · simp [h0]
      · simp [h1]
    · exact length_mapSet_of_mem _ _ _ (any_mapSet _ _ _)
    · rw [registerChart, registerChart, unregisterChart, unregisterChart,
          mapDel_mapSet, mapDel_mapSet]
  · intro mid i1 i2 c1 c2
    rw [registerChart, registerChart, unregisterChart, mapDel_mapSet, mapDel_mapSet]
    rfl
  · intro fresh
    rfl
  · intro reg mid
    rw [unregisterChart, unregisterChart, mapDel, mapDel, List.filter_filter]
    simp
  · intro reg mid h
    rw [unregisterChart, mapDel]
    exact List.filter_eq_self.mpr (fun p hp => by simpa using h p hp)

/-- Witness for C7: double registration on the empty registry at a
concrete id. -/
theorem C7_registry_idempotent_upsert_witness :
    countKey (registerChart (registerChart ([] : RegList) ['m'] 0 Json.null) ['m'] 1 Json.null)
        ['m'] = 1 ∧
    (registerChart (registerChart ([] : RegList) ['m'] 0 Json.null) ['m'] 1 Json.null).length =
      (registerChart ([] : RegList) ['m'] 0 Json.null).length ∧
    unregisterChart
        (registerChart (registerChart ([] : RegList) ['m'] 0 Json.null) ['m'] 1 Json.null)
        ['m'] = unregisterChart ([] : RegList) ['m'] :=
  C7_registry_idempotent_upsert.1 [] ['m'] 0 1 .null .null (by simp)

/-! ### Turn orchestration (`handleSend`)

`handleSend` (src/src/pages/SessionPage.tsx:199-266, and the identical
handler in `GeneratePage`, src/unnamed/part_002:199-263) appends a user
entry plus an empty assistant placeholder, then folds stream callbacks into
the transcript: `onChunk` and the terminal handlers all replace the tail
entry via `prev.slice(0, -1)`.  `isPending` is the spec-level mark for "the
assistant entry still being filled by the in-flight stream": the
placeholder and its chunk refreshes carry it, the entry written by a
terminal handler does not. -/

inductive Role where
  | user : Role
  | assistant : Role
deriving DecidableEq, Repr

/-- One transcript entry (`ChatMessage` plus the pending mark). -/
structure Entry where
  id : List Char
  role : Role
  content : List Char
  chartConfig : Option Json
  isPending : Bool
deriving DecidableEq, Repr

/-- In-flight turn state: the transcript and the closed-over
`streamContent` accumulator. -/
structure TurnState where
  messages : List Entry
  streamContent : List Char
deriving DecidableEq, Repr

/-- `handleSend` up to issuing the request (SessionPage.tsx:202-210):
append the user entry and the empty pending assistant entry. -/
def startTurn (msgs : List Entry) (uid aid text : List Char) : TurnState :=
  ⟨msgs ++ [⟨uid, .user, text, none, false⟩, ⟨aid, .assistant, [], none, true⟩], []⟩

/-- The `onChunk` callback (SessionPage.tsx:223-229): `streamContent +=
chunk`, then `prev.slice(0, -1)` plus the refreshed assistant entry. -/
def applyChunk (st : TurnState) (aid c : List Char) : TurnState :=
  ⟨st.messages.dropLast ++ [⟨aid, .assistant, st.streamContent ++ c, none, true⟩],
   st.streamContent ++ c⟩

/-- The `onDone` callback (SessionPage.tsx:231-241): replace the tail
entry with the final content and `chartConfig || undefined`. -/
def applyDone (st : TurnState) (aid : List Char) (chartConfig : Json) : TurnState :=
  ⟨st.messages.dropLast ++
     [⟨aid, .assistant, st.streamContent,
       if truthy chartConfig then some chartConfig else none, false⟩],
   st.streamContent⟩

/-- The failure-text marker `"生成失败："` shared by `onError` and the
`catch` block of `handleSend` (SessionPage.tsx:249 and 260; identically
part_002:246 and 257). -/
def failMark : List Char := ['生', '成', '失', '败', '：']

/-- The `onError` callback (SessionPage.tsx:243-252). -/
def applyError (st : TurnState) (aid err : List Char) : TurnState :=
  ⟨st.messages.dropLast ++ [⟨aid, .assistant, failMark ++ err, none, false⟩],
   st.streamContent⟩

/-- The `catch` block (SessionPage.tsx:254-262): the transport-failure
path, same replacement with the same marker. -/
def applyCatch (st : TurnState) (aid err : List Char) : TurnState :=
  ⟨st.messages.dropLast ++ [⟨aid, .assistant, failMark ++ err, none, false⟩],
   st.streamContent⟩

/-- All chunk callbacks of a turn, in stream order. -/
def runChunks (st : TurnState) (aid : List Char) (cs : List (List Char)) : TurnState :=
  cs.foldl (fun s c => applyChunk s aid c) st

/-- A terminal outcome of a turn: a `done` frame, an `error` frame, or a
transport-level exception reaching the `catch` block. -/
inductive TermEvent where
  | done (chartConfig : Json) : TermEvent
  | error (message : List Char) : TermEvent
  | thrown (message : List Char) : TermEvent
deriving DecidableEq, Repr

def applyTerminal (st : TurnState) (aid : List Char) : TermEvent → TurnState
  | .done cfg => applyDone st aid cfg
  | .error m => applyError st aid m
  | .thrown m => applyCatch st aid m

/-- One whole turn driven by `handleSend` from a given transcript. -/
def runTurn (msgs : List Entry) (uid aid text : List Char)
    (chunks : List (List Char)) (term : TermEvent) : TurnState :=
  applyTerminal (runChunks (startTurn msgs uid aid text) aid chunks) aid term

theorem runChunks_closed_form (cs : List (List Char)) :
    ∀ (pre : List Entry) (aid sc : List Char),
      runChunks ⟨pre ++ [⟨aid, .assistant, sc, none, true⟩], sc⟩ aid cs =
        ⟨pre ++ [⟨aid, .assistant, sc ++ cs.flatten, none, true⟩], sc ++ cs.flatten⟩ := by
  induction cs with
  | nil => intro pre aid sc; simp [runChunks]
  | cons c cs ih =>
    intro pre aid sc
    show runChunks (applyChunk _ aid c) aid cs = _
    rw [applyChunk]
    simp only [List.dropLast_concat]
    rw [ih pre aid (sc ++ c)]
    simp [List.append_assoc]

theorem runChunks_startTurn (msgs : List Entry) (uid aid text : List Char)
    (chunks : List (List Char)) :
    runChunks (startTurn msgs uid aid text) aid chunks =
      ⟨msgs ++ [⟨uid, .user, text, none, false⟩,
                ⟨aid, .assistant, chunks.flatten, none, true⟩],
       chunks.flatten⟩ := by
  have h := runChunks_closed_form chunks
      (msgs ++ [⟨uid, .user, text, none, false⟩]) aid []
  simp only [List.nil_append] at h
  rw [startTurn,
      show msgs ++ [(⟨uid, .user, text, none, false⟩ : Entry),
                    (⟨aid, .assistant, [], none, true⟩ : Entry)] =
        (msgs ++ [⟨uid, .user, text, none, false⟩]) ++ [⟨aid, .assistant, [], none, true⟩]
      by simp]
  rw [h]
  simp

/-- **C3.** During a turn driven by `handleSend` from a transcript with no
pending entries: after any prefix of chunk events the transcript is the old
one plus the user entry plus one pending assistant entry holding the
concatenated chunks (so exactly one entry is pending and it is the last,
and no earlier entry was mutated); each chunk callback rewrites only the
tail entry; and after the single terminal event no entry is pending. -/
theorem C3_pending_entry_invariant (msgs : List Entry) (uid aid text : List Char)
    (hclean : ∀ e ∈ msgs, e.isPending = false) :
    (∀ chunks : List (List Char),
      (runChunks (startTurn msgs uid aid text) aid chunks).messages =
        msgs ++ [⟨uid, .user, text, none, false⟩,
                 ⟨aid, .assistant, chunks.flatten, none, true⟩] ∧
      (runChunks (startTurn msgs uid aid text) aid chunks).messages.countP
        (fun e => e.isPending) = 1 ∧
      ((runChunks (startTurn msgs uid aid text) aid chunks).messages.getLast?).map
        (fun e => e.isPending) = some true) ∧
    (∀ (st : TurnState) (c : List Char),
      (applyChunk st aid c).messages.dropLast = st.messages.dropLast) ∧
    (∀ (chunks : List (List Char)) (term : TermEvent),
      (runTurn msgs uid aid text chunks term).messages.countP
        (fun e => e.isPending) = 0) := by
  have hz : msgs.countP (fun e => e.isPending) = 0 :=
    List.countP_eq_zero.mpr (fun e he => by simp [hclean e he])
  have hsplit : ∀ a b : Entry, msgs ++ [a, b] = (msgs ++ [a]) ++ [b] := by
    intro a b; simp
  refine ⟨?_, ?_, ?_⟩
  · intro chunks
    rw [runChunks_startTurn]
    refine ⟨rfl, ?_, ?_⟩
    · rw [List.countP_append, hz]
      rfl
    · rw [hsplit, List.getLast?_concat]
      rfl
  · intro st c
    rw [applyChunk]
    exact List.dropLast_concat
  · intro chunks term
    cases term with
    | done cfg =>
      rw [runTurn, runChunks_startTurn, applyTerminal, applyDone]
      simp only [hsplit, List.dropLast_concat]
      rw [List.countP_append, List.countP_append, hz]
      rfl
    | error m =>
      rw [runTurn, runChunks_startTurn, applyTerminal, applyError]
      simp only [hsplit, List.dropLast_concat]
      rw [List.countP_append, List.countP_append, hz]
      rfl
    | thrown m =>
      rw [runTurn, runChunks_startTurn, applyTerminal, applyCatch]
      simp only [hsplit, List.dropLast_concat]
      rw [List.countP_append, List.countP_append, hz]
      rfl

/-- Witness for C3: a full concrete turn ends with zero pending entries. -/
theorem C3_pending_entry_invariant_witness :
    (runTurn [] ['u'] ['a'] ['t'] [['h', 'i']] (.done .null)).messages.countP
      (fun e => e.isPending) = 0 :=
  (C3_pending_entry_invariant [] ['u'] ['a'] ['t'] (by simp)).2.2 [['h', 'i']] (.done .null)

/-! ### The `handleSend` entry guard (`SessionPage.tsx:199-221`) -/

/-- The component state `handleSend` reads: whether `sessionDetail` is
loaded, the `loading` and `isStreaming` flags, the transcript, and the two
candidate file-id lists (`dataSourceIds`, `sessionDetail.file_ids || []`). -/
structure PageState where
  hasSessionDetail : Bool
  loading : Bool
  isStreaming : Bool
  messages : List Entry
  dataSourceIds : List (List Char)
  sessionFileIds : List (List Char)
deriving DecidableEq, Repr

/-- The outbound body of `sendChatMessageStream` (`ChatRequestPayload`). -/
structure ChatRequest where
  session_id : List Char
  message : List Char
  file_ids : List (List Char)
deriving DecidableEq, Repr

/-- `handleSend` up to issuing the request (SessionPage.tsx:199-221):
`if (!sessionDetail || loading || isStreaming) return;`, then the two
transcript appends, `setIsStreaming(true)`, and the request carrying
`dataSourceIds.length > 0 ? dataSourceIds : sessionDetail.file_ids || []`. -/
def handleSendStart (st : PageState) (sid uid aid text : List Char) :
    PageState × Option ChatRequest :=
  if !st.hasSessionDetail || st.loading || st.isStreaming then (st, none)
  else
    ({ st with
        messages := st.messages ++
          [⟨uid, .user, text, none, false⟩, ⟨aid, .assistant, [], none, true⟩],
        isStreaming := true },
     some ⟨sid, text,
           if st.dataSourceIds.length > 0 then st.dataSourceIds else st.sessionFileIds⟩)

/-- **C5.** Invoking `handleSend` while a previous turn is still streaming
is an immediate no-op: the state (in particular the transcript) is
unchanged and no outbound request is issued. -/
theorem C5_second_turn_rejected (st : PageState) (sid uid aid text : List Char)
    (h : st.isStreaming = true) :
    handleSendStart st sid uid aid text = (st, none) ∧
    (handleSendStart st sid uid aid text).1.messages = st.messages := by
  have hguard : (!st.hasSessionDetail || st.loading || st.isStreaming) = true := by
    simp [h]
  rw [handleSendStart, if_pos hguard]
  exact ⟨rfl, rfl⟩

/-- Witness for C5: the guard fires on a concrete streaming state. -/
theorem C5_second_turn_rejected_witness :
    handleSendStart ⟨true, false, true, [], [], []⟩ ['s'] ['u'] ['a'] ['t'] =
      (⟨true, false, true, [], [], []⟩, none) ∧
    (handleSendStart ⟨true, false, true, [], [], []⟩ ['s'] ['u'] ['a'] ['t']).1.messages =
      (⟨true, false, true, [], [], []⟩ : PageState).messages :=
  C5_second_turn_rejected ⟨true, false, true, [], [], []⟩ ['s'] ['u'] ['a'] ['t'] rfl

/-! ### Failure-path wording (`handleSend` vs `GeneratePage` init)

Both `handleSend` handlers (SessionPage.tsx:243-262, part_002:239-259)
write `生成失败：` + message on the error-event path and in `catch`, each
replacing the tail entry.  The *initial* turn of `GeneratePage`
(part_002:166-185) instead writes `错误：` + message on both of its
failure paths, and its `catch` block appends a fresh `"error"` entry
rather than replacing the pending placeholder. -/

/-- The marker `"错误："` used by both failure paths of `GeneratePage`'s
initial turn (part_002:171 and 183). -/
def initErrMark : List Char := ['错', '误', '：']

/-- `GeneratePage` init `onError` (part_002:166-174): replaces the tail
entry with `错误：` + message under the fixed id `"m4"`. -/
def generateInitError (st : TurnState) (err : List Char) : TurnState :=
  ⟨st.messages.dropLast ++
     [⟨['m', '4'], .assistant, initErrMark ++ err, none, false⟩],
   st.streamContent⟩

/-- `GeneratePage` init `catch` (part_002:176-185): appends a fresh entry
`错误：` + message under the id `"error"`; nothing is replaced. -/
def generateInitCatch (st : TurnState) (err : List Char) : TurnState :=
  ⟨st.messages ++
     [⟨['e', 'r', 'r', 'o', 'r'], .assistant, initErrMark ++ err, none, false⟩],
   st.streamContent⟩

/-- The pending assistant placeholder `{id:"m4", content:""}` the init
turn appends before streaming (part_002:131-135). -/
def initPlaceholder : Entry := ⟨['m', '4'], .assistant, [], none, true⟩

/-- **C6 counterexample.** A transport-level failure of `GeneratePage`'s
initial turn after the placeholder was appended (e.g. a non-ok response to
the stream request) runs the `catch` path, which appends an error entry:
the turn ends with two trailing assistant entries — the still-pending empty
placeholder and the new error entry — and the failure marker `错误：`
differs from `handleSend`'s `生成失败：`.  So this failed turn does not
end with a single assistant entry carrying the one consistent prefix. -/
theorem C6_failure_path_counterexample :
    (generateInitCatch ⟨[⟨['m', '1'], .assistant, ['u'], none, false⟩,
                         ⟨['m', '3'], .user, ['q'], none, false⟩,
                         initPlaceholder], []⟩ ['x']).messages =
      [⟨['m', '1'], .assistant, ['u'], none, false⟩,
       ⟨['m', '3'], .user, ['q'], none, false⟩,
       initPlaceholder,
       ⟨['e', 'r', 'r', 'o', 'r'], .assistant, initErrMark ++ ['x'], none, false⟩] ∧
    initPlaceholder.isPending = true ∧
    initPlaceholder.content = [] ∧
    initErrMark ≠ failMark :=
  ⟨rfl, rfl, rfl, by decide⟩

/-- **C6 (amended).** For turns driven by `handleSend` (SessionPage and
GeneratePage alike) the error-event path and the transport-failure path
are literally the same transformation, so a failed turn ends with a single
assistant entry whose text is `生成失败：` followed by the message,
identical across both paths.  `GeneratePage`'s initial turn uses the
marker `错误：` instead — identical across its own two failure paths —
and its transport-failure path appends the error entry instead of
replacing the pending placeholder. -/
theorem C6_failed_turn_failure_marker_amended :
    (∀ (st : TurnState) (aid err : List Char),
        applyError st aid err = applyCatch st aid err) ∧
    (∀ (msgs : List Entry) (uid aid text : List Char) (chunks : List (List Char))
        (err : List Char),
        (runTurn msgs uid aid text chunks (.error err)).messages =
          msgs ++ [⟨uid, .user, text, none, false⟩,
                   ⟨aid, .assistant, failMark ++ err, none, false⟩] ∧
        (runTurn msgs uid aid text chunks (.thrown err)).messages =
          msgs ++ [⟨uid, .user, text, none, false⟩,
                   ⟨aid, .assistant, failMark ++ err, none, false⟩]) ∧
    (∀ (st : TurnState) (err : List Char),
        (generateInitError st err).messages.getLast? =
          some ⟨['m', '4'], .assistant, initErrMark ++ err, none, false⟩ ∧
        (generateInitCatch st err).messages.getLast? =
          some ⟨['e', 'r', 'r', 'o', 'r'], .assistant, initErrMark ++ err, none, false⟩ ∧
        (generateInitCatch st err).messages.dropLast = st.messages) := by
  have hsplit : ∀ (l : List Entry) (a b : Entry), l ++ [a, b] = (l ++ [a]) ++ [b] := by
    intro l a b; simp
  refine ⟨fun st aid err => rfl, ?_, ?_⟩
  · intro msgs uid aid text chunks err
    constructor
    · rw [runTurn, runChunks_startTurn, applyTerminal, applyError]
      simp only [hsplit, List.dropLast_concat]
    · rw [runTurn, runChunks_startTurn, applyTerminal, applyCatch]
      simp only [hsplit, List.dropLast_concat]
  · intro st err
    refine ⟨?_, ?_, ?_⟩
    · rw [generateInitError, List.getLast?_concat]
    · rw [generateInitCatch, List.getLast?_concat]
    · rw [generateInitCatch]
      exact List.dropLast_concat

/-! ### Chart configuration normalization (`MessageChart`, ChatMessageList.tsx:62-113)

Before `setOption`, the effect copies the config (`{...config}`), reads
`title?.text`, `legend?.data` and `radar` for truthiness, forces a
vertical legend and default center/radius on radar charts whose legend has
more than 3 items, computes a minimum top margin from title/legend
presence and the legend item count, and for non-radar charts injects or
raises `grid.top` to that minimum when the caller's value is absent,
falsy, or numerically smaller (a non-numeric string parses to `NaN`, and
`NaN < minTop` is false, so it is left alone).  Parsed objects are the
runtime results of `JSON.parse`, so duplicate keys do not occur in them. -/

def titleKeyC : List Char := ['t', 'i', 't', 'l', 'e']
def textKeyC : List Char := ['t', 'e', 'x', 't']
def legendKeyC : List Char := ['l', 'e', 'g', 'e', 'n', 'd']
def dataKeyC : List Char := ['d', 'a', 't', 'a']
def radarKeyC : List Char := ['r', 'a', 'd', 'a', 'r']
def gridKeyC : List Char := ['g', 'r', 'i', 'd']
def topKeyC : List Char := ['t', 'o', 'p']
def leftKeyC : List Char := ['l', 'e', 'f', 't']
def rightKeyC : List Char := ['r', 'i', 'g', 'h', 't']
def bottomKeyC : List Char := ['b', 'o', 't', 't', 'o', 'm']
def orientKeyC : List Char := ['o', 'r', 'i', 'e', 'n', 't']
def centerKeyC : List Char := ['c', 'e', 'n', 't', 'e', 'r']
def radiusKeyC : List Char := ['r', 'a', 'd', 'i', 'u', 's']
def verticalStr : List Char := ['v', 'e', 'r', 't', 'i', 'c', 'a', 'l']

/-- `["60%", "55%"]`, the default radar center (ChatMessageList.tsx:84). -/
def defaultRadarCenter : Json := .arr [.str ['6', '0', '%'], .str ['5', '5', '%']]

/-- `"55%"`, the default radar radius (ChatMessageList.tsx:85). -/
def defaultRadarRadius : Json := .str ['5', '5', '%']

/-- `o || d` for a possibly-absent value and a JSON default. -/
def jsOrElse (o : Option Json) (d : Json) : Json :=
  match o with
  | some v => if truthy v then v else d
  | none => d

def natToChars (n : Nat) : List Char := Nat.toDigits 10 n

/-- JS object spread `{...v}`: own enumerable fields, in order (strings
and arrays spread index keys, other primitives spread nothing). -/
def spreadFields : Json → List (List Char × Json)
  | .obj fs => fs
  | .str s => s.enum.map (fun p => (natToChars p.1, Json.str [p.2]))
  | .arr xs => xs.enum.map (fun p => (natToChars p.1, p.2))
  | _ => []

/-- JS spread-with-override `{...obj, k: v}` restricted to one key:
replace the binding in place or append it. -/
def setField (fs : List (List Char × Json)) (k : List Char) (v : Json) :
    List (List Char × Json) :=
  if (List.any fs fun p => p.1 = k) then
    List.map (fun p => if p.1 = k then (k, v) else p) fs
  else fs ++ [(k, v)]

def hexDigitsToNat (ds : List Char) : Nat :=
  ds.foldl (fun a c => a * 16 + ((hexVal c).getD 0)) 0

/-- JS `parseInt(s)` with the default radix (10, or 16 after an `0x`
prefix); `none` models `NaN`. -/
def parseIntJs (s : List Char) : Option Int :=
  let t := s.dropWhile isJsTrimWs
  let signStep : Bool × List Char :=
    match t with
    | '-' :: r => (true, r)
    | '+' :: r => (false, r)
    | _ => (false, t)
  let hexRest : Option (List Char) :=
    match signStep.2 with
    | '0' :: 'x' :: r => some r
    | '0' :: 'X' :: r => some r
    | _ => none
  match hexRest with
  | some r =>
    let ds := r.takeWhile (fun c => (hexVal c).isSome)
    if ds.isEmpty then none
    else some ((if signStep.1 then -1 else 1) * (hexDigitsToNat ds : Int))
  | none =>
    let ds := signStep.2.takeWhile Char.isDigit
    if ds.isEmpty then none
    else some ((if signStep.1 then -1 else 1) * (digitsToNat ds : Int))

/-- Exact comparison of the JSON decimal `m * 10^e` with an integer. -/
def numLtInt (m e n : Int) : Bool :=
  if 0 ≤ e then decide (m * (10 : Int) ^ e.toNat < n)
  else decide (m < n * (10 : Int) ^ (-e).toNat)

/-- `!!(safeConfig.title as ...)?.text` (ChatMessageList.tsx:64). -/
def cfgHasTitle (fs : List (List Char × Json)) : Bool :=
  truthyO (optGet (getField fs titleKeyC) textKeyC)

/-- `!!(safeConfig.legend as ...)?.data` (ChatMessageList.tsx:65). -/
def cfgHasLegend (fs : List (List Char × Json)) : Bool :=
  truthyO (optGet (getField fs legendKeyC) dataKeyC)

/-- `!!safeConfig.radar` (ChatMessageList.tsx:66). -/
def cfgIsRadar (fs : List (List Char × Json)) : Bool :=
  truthyO (getField fs radarKeyC)

/-- `legendData && legendData.length > n` where
`legendData = (safeConfig.legend)?.data` (ChatMessageList.tsx:71-73, 95-96). -/
def legendLenGt (fs : List (List Char × Json)) (n : Nat) : Bool :=
  match optGet (getField fs legendKeyC) dataKeyC with
  | some d => truthy d &&
      (match jsLen d with
       | some k => decide (n < k)
       | none => false)
  | none => false

/-- The radar branch (ChatMessageList.tsx:69-88): when the chart is a
radar with a legend of more than 3 items, force `orient: "vertical"`,
`left: 10`, `top: 50` on the legend and give the radar
`center: radar.center || ["60%","55%"]`, `radius: radar.radius || "55%"`. -/
def radarAdjust (ir hl : Bool) (fs : List (List Char × Json)) :
    List (List Char × Json) :=
  if ir && hl then
    if legendLenGt fs 3 then
      let legend := (getField fs legendKeyC).getD .null
      let legend2 : Json := .obj (setField (setField (setField (spreadFields legend)
        orientKeyC (.str verticalStr)) leftKeyC (.num 10 0)) topKeyC (.num 50 0))
      let radar := (getField fs radarKeyC).getD .null
      let radar2 : Json := .obj (setField (setField (spreadFields radar)
        centerKeyC (jsOrElse (jsGet radar centerKeyC) defaultRadarCenter))
        radiusKeyC (jsOrElse (jsGet radar radiusKeyC) defaultRadarRadius))
      setField (setField fs legendKeyC legend2) radarKeyC radar2
    else fs
  else fs

/-- The minimum top margin (ChatMessageList.tsx:91-97). -/
def minTopCalc (ht hl ir : Bool) (fs : List (List Char × Json)) : Nat :=
  let m1 : Nat := 60
  let m2 := if ht && hl then 80 else m1
  let m3 := if ht then max m2 50 else m2
  if hl && !ir then (if legendLenGt fs 4 then 100 else m3) else m3

/-- `typeof grid.top === 'number' ? grid.top : typeof grid.top ===
'string' ? parseInt(grid.top) : 0`, compared with `minTop`
(ChatMessageList.tsx:105-107); `NaN < minTop` is false. -/
def curTopLtMin (g : Json) (minTop : Nat) : Bool :=
  match jsGet g topKeyC with
  | some (.num m e) => numLtInt m e minTop
  | some (.str s) =>
    match parseIntJs s with
    | some k => decide (k < (minTop : Int))
    | none => false
  | _ => decide ((0 : Int) < (minTop : Int))

/-- `{ top: minTop, left: 60, right: 30, bottom: 60 }`
(ChatMessageList.tsx:102). -/
def defaultGrid (minTop : Nat) : Json :=
  .obj [(topKeyC, .num minTop 0), (leftKeyC, .num 60 0),
        (rightKeyC, .num 30 0), (bottomKeyC, .num 60 0)]

/-- The non-radar margin injection (ChatMessageList.tsx:100-111). -/
def gridAdjust (ir : Bool) (minTop : Nat) (fs : List (List Char × Json)) :
    List (List Char × Json) :=
  if ir then fs
  else
    match getField fs gridKeyC with
    | none => setField fs gridKeyC (defaultGrid minTop)
    | some g =>
      if !truthy g then setField fs gridKeyC (defaultGrid minTop)
      else if curTopLtMin g minTop then
        setField fs gridKeyC (.obj (setField (spreadFields g) topKeyC (.num minTop 0)))
      else fs

/-- The whole `safeConfig` normalization applied before `setOption`
(ChatMessageList.tsx:62-113). -/
def normalizeConfig (cfg : Json) : Json :=
  let fs0 := spreadFields cfg
  let ht := cfgHasTitle fs0
  let hl := cfgHasLegend fs0
  let ir := cfgIsRadar fs0
  let fs1 := radarAdjust ir hl fs0
  let mt := minTopCalc ht hl ir fs1
  Json.obj (gridAdjust ir mt fs1)

/-- The caller's grid top is absent, falsy or numerically below the
minimum — exactly the cases in which the code rewrites it. -/
def gridTopLowOrAbsent (fs : List (List Char × Json)) (minTop : Nat) : Bool :=
  match getField fs gridKeyC with
  | none => true
  | some g => !truthy g || curTopLtMin g minTop

theorem filter_key_setMap (fs : List (List Char × Json)) (k : List Char) (v : Json) :
    List.filter (fun p => p.1 = k)
        (List.map (fun p => if p.1 = k then (k, v) else p) fs) =
      List.replicate (List.countP (fun p => p.1 = k) fs) (k, v) := by
  induction fs with
  | nil => rfl
  | cons p ps ih =>
    by_cases h : p.1 = k <;>
      simp [List.filter_cons, List.countP_cons, h, ih, List.replicate_succ]

theorem getField_setField (fs : List (List Char × Json)) (k : List Char) (v : Json) :
    getField (setField fs k v) k = some v := by
  rw [setField]
  by_cases h : (List.any fs fun p => p.1 = k)
  · rw [if_pos h, getField, filter_key_setMap]
    have hpos : 0 < List.countP (fun p => p.1 = k) fs := by
      rw [List.countP_pos_iff]
      rcases List.any_eq_true.mp h with ⟨p, hp, hpk⟩
      exact ⟨p, hp, hpk⟩
    obtain ⟨n, hn⟩ : ∃ n, List.countP (fun p => p.1 = k) fs = n + 1 :=
      ⟨List.countP (fun p => p.1 = k) fs - 1, by omega⟩
    rw [hn, List.replicate_succ', List.getLast?_concat]
    rfl
  · rw [if_neg h, getField]
    have hf : List.filter (fun p => p.1 = k) (fs ++ [(k, v)]) =
        List.filter (fun p => p.1 = k) fs ++ [(k, v)] := by
      rw [List.filter_append]
      simp
    rw [hf, List.getLast?_concat]
    rfl

theorem filter_other_setMap (fs : List (List Char × Json)) (k k' : List Char) (v : Json)
    (h : ¬k' = k) :
    List.filter (fun p => p.1 = k')
        (List.map (fun p => if p.1 = k then (k, v) else p) fs) =
      List.filter (fun p => p.1 = k') fs := by
  have hkk : ¬(k = k') := fun he => h he.symm
  induction fs with
  | nil => rfl
  | cons p ps ih =>
    by_cases hp : p.1 = k
    · have h1 : ¬(p.1 = k') := by rw [hp]; exact hkk
      simp [List.filter_cons, hp, h1, hkk, ih]
    · simp [List.filter_cons, hp, ih]

theorem getField_setField_ne (fs : List (List Char × Json)) (k k' : List Char) (v : Json)
    (h : ¬k' = k) :
    getField (setField fs k v) k' = getField fs k' := by
  rw [setField]
  by_cases ha : (List.any fs fun p => p.1 = k)
  · rw [if_pos ha, getField, getField, filter_other_setMap fs k k' v h]
  · have hkk : ¬(k = k') := fun he => h he.symm
    rw [if_neg ha, getField, getField, List.filter_append]
    have hz : List.filter (fun p => p.1 = k') [(k, v)] = [] := by
      simp [hkk]
    rw [hz, List.append_nil]

theorem truthy_jsOrElse (o : Option Json) (d : Json) (hd : truthy d = true) :
    truthy (jsOrElse o d) = true := by
  cases o with
  | none => exact hd
  | some v =>
    rw [jsOrElse]
    by_cases hv : truthy v <;> simp [hv, hd]

theorem normalizeConfig_eq (cfg : Json) :
    normalizeConfig cfg =
      Json.obj (gridAdjust (cfgIsRadar (spreadFields cfg))
        (minTopCalc (cfgHasTitle (spreadFields cfg)) (cfgHasLegend (spreadFields cfg))
          (cfgIsRadar (spreadFields cfg))
          (radarAdjust (cfgIsRadar (spreadFields cfg)) (cfgHasLegend (spreadFields cfg))
            (spreadFields cfg)))
        (radarAdjust (cfgIsRadar (spreadFields cfg)) (cfgHasLegend (spreadFields cfg))
          (spreadFields cfg))) := rfl

theorem radarAdjust_not_radar (hl : Bool) (fs : List (List Char × Json)) :
    radarAdjust false hl fs = fs := rfl

theorem gridAdjust_radar (mt : Nat) (fs : List (List Char × Json)) :
    gridAdjust true mt fs = fs := rfl

theorem getField_radarAdjust_grid (ir hl : Bool) (fs : List (List Char × Json)) :
    getField (radarAdjust ir hl fs) gridKeyC = getField fs gridKeyC := by
  simp only [radarAdjust]
  by_cases h1 : (ir && hl) = true
  · rw [if_pos h1]
    by_cases h2 : legendLenGt fs 3 = true
    · rw [if_pos h2,
          getField_setField_ne _ _ _ _ (by decide : ¬(gridKeyC = radarKeyC)),
          getField_setField_ne _ _ _ _ (by decide : ¬(gridKeyC = legendKeyC))]
    · rw [if_neg h2]
  · rw [if_neg h1]

theorem radarAdjust_forced (fs : List (List Char × Json))
    (hlen : legendLenGt fs 3 = true) :
    radarAdjust true true fs =
      setField (setField fs legendKeyC
        (.obj (setField (setField (setField
            (spreadFields ((getField fs legendKeyC).getD .null))
            orientKeyC (.str verticalStr)) leftKeyC (.num 10 0)) topKeyC (.num 50 0))))
        radarKeyC
        (.obj (setField (setField (spreadFields ((getField fs radarKeyC).getD .null))
            centerKeyC (jsOrElse (jsGet ((getField fs radarKeyC).getD .null) centerKeyC)
              defaultRadarCenter))
            radiusKeyC (jsOrElse (jsGet ((getField fs radarKeyC).getD .null) radiusKeyC)
              defaultRadarRadius))) := by
  simp [radarAdjust, hlen]

/-- **C9.** Before a configuration reaches the rendering handle: for a
non-radar chart with a title and/or a legend whose caller grid top is
absent, falsy or numerically smaller than the computed minimum, the
applied `grid.top` is exactly that minimum (so at least it); radar charts
are exempt from the margin injection (their `grid` passes through
unchanged); and a radar chart whose legend has more than 3 items gets a
forced vertical legend (`orient:"vertical"`, `left:10`, `top:50`) and a
truthy plot-area center (the caller's, or the `["60%","55%"]` default). -/
theorem C9_chart_margin_normalization :
    (∀ cfg : Json,
        cfgIsRadar (spreadFields cfg) = false →
        (cfgHasTitle (spreadFields cfg) || cfgHasLegend (spreadFields cfg)) = true →
        gridTopLowOrAbsent (spreadFields cfg)
            (minTopCalc (cfgHasTitle (spreadFields cfg)) (cfgHasLegend (spreadFields cfg))
              false (spreadFields cfg)) = true →
        optGet (jsGet (normalizeConfig cfg) gridKeyC) topKeyC =
          some (.num (minTopCalc (cfgHasTitle (spreadFields cfg))
              (cfgHasLegend (spreadFields cfg)) false (spreadFields cfg)) 0)) ∧
    (∀ cfg : Json, cfgIsRadar (spreadFields cfg) = true →
        jsGet (normalizeConfig cfg) gridKeyC = getField (spreadFields cfg) gridKeyC) ∧
    (∀ cfg : Json, cfgIsRadar (spreadFields cfg) = true →
        cfgHasLegend (spreadFields cfg) = true →
        legendLenGt (spreadFields cfg) 3 = true →
        optGet (jsGet (normalizeConfig cfg) legendKeyC) orientKeyC =
          some (.str verticalStr) ∧
        optGet (jsGet (normalizeConfig cfg) legendKeyC) leftKeyC = some (.num 10 0) ∧
        optGet (jsGet (normalizeConfig cfg) legendKeyC) topKeyC = some (.num 50 0) ∧
        truthyO (optGet (jsGet (normalizeConfig cfg) radarKeyC) centerKeyC) = true) := by
  refine ⟨?_, ?_, ?_⟩
  · intro cfg hir htl hlow
    rw [normalizeConfig_eq, hir, radarAdjust_not_radar]
    rw [gridTopLowOrAbsent] at hlow
    simp only [jsGet]
    rcases hg : getField (spreadFields cfg) gridKeyC with _ | g
    · rw [hg] at hlow
      have hga : gridAdjust false
          (minTopCalc (cfgHasTitle (spreadFields cfg)) (cfgHasLegend (spreadFields cfg))
            false (spreadFields cfg)) (spreadFields cfg) =
          setField (spreadFields cfg) gridKeyC
            (defaultGrid (minTopCalc (cfgHasTitle (spreadFields cfg))
              (cfgHasLegend (spreadFields cfg)) false (spreadFields cfg))) := by
        simp [gridAdjust, hg]
      rw [hga, getField_setField]
      rfl
    · rw [hg] at hlow
      by_cases hgt : truthy g = true
      · have hlt : curTopLtMin g
            (minTopCalc (cfgHasTitle (spreadFields cfg)) (cfgHasLegend (spreadFields cfg))
              false (spreadFields cfg)) = true := by
          simpa [hgt] using hlow
        have hga : gridAdjust false
            (minTopCalc (cfgHasTitle (spreadFields cfg)) (cfgHasLegend (spreadFields cfg))
              false (spreadFields cfg)) (spreadFields cfg) =
            setField (spreadFields cfg) gridKeyC
              (.obj (setField (spreadFields g) topKeyC
                (.num (minTopCalc (cfgHasTitle (spreadFields cfg))
                  (cfgHasLegend (spreadFields cfg)) false (spreadFields cfg)) 0))) := by
          simp [gridAdjust, hg, hgt, hlt]
        rw [hga, getField_setField]
        simp only [optGet, Option.bind, jsGet]
        rw [getField_setField]
      · have hga : gridAdjust false
            (minTopCalc (cfgHasTitle (spreadFields cfg)) (cfgHasLegend (spreadFields cfg))
              false (spreadFields cfg)) (spreadFields cfg) =
            setField (spreadFields cfg) gridKeyC
              (defaultGrid (minTopCalc (cfgHasTitle (spreadFields cfg))
                (cfgHasLegend (spreadFields cfg)) false (spreadFields cfg))) := by
          simp [gridAdjust, hg, hgt]
        rw [hga, getField_setField]
        rfl
  · intro cfg hir
    rw [normalizeConfig_eq, hir, gridAdjust_radar]
    simp only [jsGet]
    exact getField_radarAdjust_grid true (cfgHasLegend (spreadFields cfg)) (spreadFields cfg)
  · intro cfg hir hhl hlen
    rw [normalizeConfig_eq, hir, hhl, gridAdjust_radar, radarAdjust_forced _ hlen]
    simp only [jsGet]
    refine ⟨?_, ?_, ?_, ?_⟩
    · rw [getField_setField_ne _ _ _ _ (by decide : ¬(legendKeyC = radarKeyC)),
          getField_setField]
      simp only [optGet, Option.bind, jsGet]
      rw [getField_setField_ne _ _ _ _ (by decide : ¬(orientKeyC = topKeyC)),
          getField_setField_ne _ _ _ _ (by decide : ¬(orientKeyC = leftKeyC)),
          getField_setField]
    · rw [getField_setField_ne _ _ _ _ (by decide : ¬(legendKeyC = radarKeyC)),
          getField_setField]
      simp only [optGet, Option.bind, jsGet]
      rw [getField_setField_ne _ _ _ _ (by decide : ¬(leftKeyC = topKeyC)),
          getField_setField]
    · rw [getField_setField_ne _ _ _ _ (by decide : ¬(legendKeyC = radarKeyC)),
          getField_setField]
      simp only [optGet, Option.bind, jsGet]
      rw [getField_setField]
    · rw [getField_setField]
      simp only [optGet, Option.bind, jsGet]
      rw [getField_setField_ne _ _ _ _ (by decide : ¬(centerKeyC = radiusKeyC)),
          getField_setField]
      exact truthy_jsOrElse _ _ rfl

/-- Witness for C9: a non-radar chart with only a title and no grid gets
`grid.top` set to the computed minimum. -/
theorem C9_chart_margin_normalization_witness :
    optGet (jsGet (normalizeConfig
        (Json.obj [(titleKeyC, Json.obj [(textKeyC, Json.str ['T'])])])) gridKeyC) topKeyC =
      some (.num (minTopCalc
          (cfgHasTitle (spreadFields
            (Json.obj [(titleKeyC, Json.obj [(textKeyC, Json.str ['T'])])])))
          (cfgHasLegend (spreadFields
            (Json.obj [(titleKeyC, Json.obj [(textKeyC, Json.str ['T'])])])))
          false
          (spreadFields
            (Json.obj [(titleKeyC, Json.obj [(textKeyC, Json.str ['T'])])]))) 0) :=
  C9_chart_margin_normalization.1 _ (by decide) (by decide) (by decide)

end ChatExcel
